import Mathlib

/-!
Verification of the DokuWiki manager plugin's error-translation pipeline and
JSON-RPC client, shallowly embedded from the JavaScript sources
(`src/errorHandler.js`, `src/auth.js`, `src/apiClient.js`).

Strings are modelled as lists of characters (`JStr`); JavaScript values that
may be `undefined` are modelled with `Option`; functions that can throw are
modelled with `Except`.
-/

/-- JavaScript strings, modelled as lists of characters. -/
abbrev JStr := List Char

/-- A JavaScript error value as used by the plugin: a `message` (which can be
absent, i.e. `undefined`, on plain objects), an optional numeric `code`, and
an optional `originalMessage` set by the error handler. -/
structure JSErr where
  message : Option JStr
  code : Option Int
  originalMessage : Option JStr
deriving DecidableEq

/-- Model of the JavaScript `str.startsWith(sub)` test used to build substring
search: `leadMatch hay sub` holds when `sub` is an initial segment of `hay`. -/
def leadMatch : JStr → JStr → Bool
  | _, [] => true
  | [], _ :: _ => false
  | a :: hs, b :: bs => a == b && leadMatch hs bs

/-- Model of the JavaScript `hay.includes(sub)` contiguous-substring test. -/
def strHas : JStr → JStr → Bool
  | [], sub => leadMatch [] sub
  | h :: t, sub => leadMatch (h :: t) sub || strHas t sub

/-- Decimal digit character. -/
def digitChar (n : Nat) : Char := Char.ofNat (48 + n)

/-- Fuel-driven decimal rendering of a natural number, most significant digit
first. -/
def natStrAux : Nat → Nat → JStr → JStr
  | 0, _, acc => acc
  | f + 1, n, acc =>
    if n < 10 then digitChar n :: acc
    else natStrAux f (n / 10) (digitChar (n % 10) :: acc)

/-- Decimal rendering of a natural number. -/
def natStr (n : Nat) : JStr := natStrAux (n + 1) n []

/-- Model of JavaScript number-to-string coercion for integers, as used by the
template literals in the sources. -/
def jsIntToStr (i : Int) : JStr :=
  if i < 0 then '-' :: natStr i.natAbs else natStr i.toNat

/-- JavaScript truthiness of an optional numeric `code` field: `undefined`
and `0` are falsy. -/
def truthyCode : Option Int → Bool
  | none => false
  | some c => if c = 0 then false else true

/-- The fixed code-to-description table `ERROR_MESSAGES` of
`src/errorHandler.js`. -/
def ERROR_MESSAGES : Int → Option JStr
  | 0 => some "Success".data
  | 111 => some "You are not allowed to read this page".data
  | 121 => some "The requested page (revision) does not exist".data
  | 131 => some "Empty or invalid page ID given".data
  | 132 => some "Refusing to write an empty new wiki page".data
  | 133 => some "The page is currently locked".data
  | 134 => some "The page content was blocked".data
  | 211 => some "You are not allowed to read this media file".data
  | 212 => some "You are not allowed to delete this media file".data
  | 221 => some "The requested media file (revision) does not exist".data
  | 231 => some "Empty or invalid media ID given".data
  | 232 => some "Media file is still referenced".data
  | 233 => some "Failed to delete media file".data
  | 234 => some "Invalid base64 encoded data".data
  | 235 => some "Empty file given".data
  | 236 => some "Failed to save media".data
  | 401 => some "Authentication failed. Please check your credentials".data
  | 403 => some "Insufficient permissions to perform this operation".data
  | 500 => some "Server error occurred. Please try again later".data
  | 1000 => some "Unable to connect to the DokuWiki server".data
  | 1001 => some "Network error when connecting to server".data
  | 1002 => some "Timeout when connecting to server".data
  | _ => none

/-- The `"(Code: <code>)"` fragment of the enriched message. -/
def codeTag (c : Int) : JStr := "(Code: ".data ++ jsIntToStr c ++ ")".data

/-- Embedding of `handleApiError` from `src/errorHandler.js`. An absent or
zero (falsy) `code` returns the input unchanged; otherwise the error is
cloned (`new Error(error.message)` coerces an `undefined` message to the
empty string), the `code` and `originalMessage` fields are copied, and when
the code is in the table the message is rebuilt from the table description;
the trailing append is guarded on the input's `originalMessage` field, as in
the source. -/
def handleApiError (e : JSErr) : JSErr :=
  match e.code with
  | none => e
  | some c =>
    if c = 0 then e
    else
      let base : JSErr :=
        { message := some (e.message.getD []), code := some c,
          originalMessage := e.message }
      match ERROR_MESSAGES c with
      | none => base
      | some d =>
        let newMsg := d ++ " (Code: ".data ++ jsIntToStr c ++ ")".data
        let finalMsg :=
          match e.originalMessage with
          | none => newMsg
          | some om =>
            if om ≠ [] ∧ strHas newMsg om = false
            then newMsg ++ " - ".data ++ om
            else newMsg
        { base with message := some finalMsg }

/-- Recovery suggestion texts from `src/errorHandler.js` (the permission text
reads "does not" for the source's contraction). -/
def authSug : JStr :=
  "Check your username and password in plugin settings. Make sure you have the correct authentication method selected.".data

/-- Permission-error suggestion text. -/
def permSug : JStr :=
  "Your account does not have sufficient permissions. Contact your wiki administrator for access.".data

/-- Connection-error suggestion text. -/
def connSug : JStr :=
  "Check your network connection and verify that the DokuWiki URL is correct in plugin settings.".data

/-- Page-locked suggestion text. -/
def lockSug : JStr :=
  "The page is currently being edited by another user. Try again later.".data

/-- Server-error suggestion text. -/
def servSug : JStr :=
  "The server is experiencing issues. Please try again later or contact your wiki administrator.".data

/-- Embedding of `getRecoverySuggestion` from `src/errorHandler.js`.
`Except.error ()` models the TypeError that JavaScript raises when
`error.message.includes(...)` is evaluated on an `undefined` message, which
happens exactly when the code is truthy and differs from 401 (the
short-circuit `error.code === 401 || error.message.includes(...)`). -/
def getRecoverySuggestion (e : JSErr) : Except Unit (Option JStr) :=
  match e.code with
  | none => Except.ok none
  | some c =>
    if c = 0 then Except.ok none
    else if c = 401 then Except.ok (some authSug)
    else
      match e.message with
      | none => Except.error ()
      | some m =>
        if strHas m "Authentication failed".data then Except.ok (some authSug)
        else if c = 403 ∨ c = 111 ∨ c = 212 then Except.ok (some permSug)
        else if 1000 ≤ c ∧ c < 2000 then Except.ok (some connSug)
        else if c = 133 then Except.ok (some lockSug)
        else if 500 ≤ c ∧ c < 600 then Except.ok (some servSug)
        else Except.ok none

/-- Spec-side predicate: the exact matches and ranges listed for
`getRecoverySuggestion` ({401}, {403, 111, 212}, [1000, 2000), {133},
[500, 600)). -/
def sugHit (c : Int) : Bool :=
  if c = 401 then true
  else if c = 403 ∨ c = 111 ∨ c = 212 then true
  else if 1000 ≤ c ∧ c < 2000 then true
  else if c = 133 then true
  else if 500 ≤ c ∧ c < 600 then true
  else false

lemma leadMatch_append (s t : JStr) : leadMatch (s ++ t) s = true := by
  induction s with
  | nil => cases t <;> rfl
  | cons a s ih => simp [leadMatch, ih]

lemma strHas_cons (a : Char) (hay sub : JStr) (h : strHas hay sub = true) :
    strHas (a :: hay) sub = true := by
  simp [strHas, h]

lemma strHas_of_lead (hay sub : JStr) (h : leadMatch hay sub = true) :
    strHas hay sub = true := by
  cases hay <;> simp [strHas, h]

lemma strHas_mid (pre sub post : JStr) :
    strHas (pre ++ (sub ++ post)) sub = true := by
  induction pre with
  | nil => simpa using strHas_of_lead (sub ++ post) sub (leadMatch_append sub post)
  | cons a p ih => simpa using strHas_cons a (p ++ (sub ++ post)) sub ih

lemma strHas_of_eq (m pre sub post : JStr) (h : m = pre ++ (sub ++ post)) :
    strHas m sub = true := by
  rw [h]; exact strHas_mid pre sub post

lemma litSpace : " (Code: ".data = ' ' :: "(Code: ".data := by decide

/-- C1: for an error with a table code, the claim requires the input error's
message to be appended as " - <originalMessage>" whenever it is non-empty and
not contained in the rebuilt message. The code instead guards the append on
the input's `originalMessage` field (absent on a freshly raised error), so at
the failing input {code: 500, message: "Technical database error"} the
enriched message drops the technical message entirely, contradicting the
repository's own unit test "should preserve original technical message". -/
theorem C1_code_eval :
    handleApiError
        { message := some "Technical database error".data, code := some 500,
          originalMessage := none }
      = { message := some "Server error occurred. Please try again later (Code: 500)".data,
          code := some 500,
          originalMessage := some "Technical database error".data }
    ∧ strHas "Server error occurred. Please try again later (Code: 500)".data
        "Technical database error".data = false := by
  constructor <;> decide

/-- C2 counterexample: code 0 is in the fixed table (description "Success"),
but `handleApiError` treats a zero code as falsy and returns the input
unchanged, so the output message contains neither "Success" nor
"(Code: 0)". -/
theorem C2_cex :
    handleApiError { message := some "boom".data, code := some 0, originalMessage := none }
      = { message := some "boom".data, code := some 0, originalMessage := none }
    ∧ strHas "boom".data "Success".data = false
    ∧ strHas "boom".data (codeTag 0) = false := by
  refine ⟨by decide, by decide, by decide⟩

/-- C2 (amended to nonzero codes): for every error whose code is present in
the fixed table and nonzero, the enriched message contains both the table
description and the literal substring "(Code: <code>)". -/
theorem C2_amended :
    ∀ (e : JSErr) (c : Int) (d : JStr),
      e.code = some c → c ≠ 0 → ERROR_MESSAGES c = some d →
      ∃ m, (handleApiError e).message = some m
        ∧ strHas m d = true ∧ strHas m (codeTag c) = true := by
  intro e c d hc h0 hd
  unfold handleApiError
  split
  next heq => rw [hc] at heq; exact Option.noConfusion heq
  next c' heq =>
    rw [hc] at heq
    injection heq with h
    subst h
    rw [if_neg h0]
    split
    next heq2 => rw [hd] at heq2; exact Option.noConfusion heq2
    next d' heq2 =>
      rw [hd] at heq2
      injection heq2 with h2
      subst h2
      dsimp only
      split
      next =>
        refine ⟨_, rfl, ?_, ?_⟩
        · exact strHas_of_eq _ [] d (" (Code: ".data ++ jsIntToStr c ++ ")".data)
            (by simp [List.append_assoc])
        · exact strHas_of_eq _ (d ++ [' ']) (codeTag c) []
            (by simp [codeTag, litSpace, List.append_assoc])
      next om homs =>
        split
        next hom =>
          refine ⟨_, rfl, ?_, ?_⟩
          · exact strHas_of_eq _ [] d
              (" (Code: ".data ++ jsIntToStr c ++ ")".data ++ (" - ".data ++ om))
              (by simp [List.append_assoc])
          · exact strHas_of_eq _ (d ++ [' ']) (codeTag c) (" - ".data ++ om)
              (by simp [codeTag, litSpace, List.append_assoc])
        next hom =>
          refine ⟨_, rfl, ?_, ?_⟩
          · exact strHas_of_eq _ [] d (" (Code: ".data ++ jsIntToStr c ++ ")".data)
              (by simp [List.append_assoc])
          · exact strHas_of_eq _ (d ++ [' ']) (codeTag c) []
              (by simp [codeTag, litSpace, List.append_assoc])

/-- C2 witness: concrete instance of the amended claim at code 121. -/
theorem C2_witness :
    ∃ m, (handleApiError ⟨some "raw".data, some 121, none⟩).message = some m
      ∧ strHas m "The requested page (revision) does not exist".data = true
      ∧ strHas m (codeTag 121) = true :=
  C2_amended _ 121 _ rfl (by decide) rfl

lemma recovery_ne_err (e : JSErr) (m : JStr) (hm : e.message = some m) :
    getRecoverySuggestion e ≠ Except.error () := by
  unfold getRecoverySuggestion
  rw [hm]
  rcases hco : e.code with _ | c
  · simp
  · repeat' split
    all_goals simp_all

lemma recovery_ok_of_message (e : JSErr) (m : JStr) (hm : e.message = some m) :
    ∃ r, getRecoverySuggestion e = Except.ok r := by
  cases hg : getRecoverySuggestion e with
  | ok r => exact ⟨r, rfl⟩
  | error u => cases u; exact absurd hg (recovery_ne_err e m hm)

/-- C3 counterexample: code 999 is outside every listed exact match and range
(`sugHit 999 = false`), yet `getRecoverySuggestion` returns the
authentication suggestion, not null, because the message contains
"Authentication failed" — the result is not independent of the message
text. -/
theorem C3_cex :
    getRecoverySuggestion
        ⟨some "Authentication failed. Please check your credentials".data,
          some 999, none⟩
      = Except.ok (some authSug)
    ∧ sugHit 999 = false :=
  ⟨rfl, by decide⟩

/-- C3 (amended): for every error with a string message,
`getRecoverySuggestion` returns null if and only if the code is absent, zero,
or both outside all listed exact matches and ranges and the message does not
contain the substring "Authentication failed". -/
theorem C3_amended :
    ∀ (e : JSErr) (m : JStr), e.message = some m →
      (getRecoverySuggestion e = Except.ok none ↔
        (e.code = none ∨ e.code = some 0 ∨
          ∃ c, e.code = some c ∧ sugHit c = false ∧
            strHas m "Authentication failed".data = false)) := by
  intro e m hm
  rcases hco : e.code with _ | c
  · simp [getRecoverySuggestion, hco]
  · by_cases h0 : c = 0
    · simp [getRecoverySuggestion, hco, hm, h0]
    · by_cases h401 : c = 401
      · simp [getRecoverySuggestion, hco, hm, h0, h401, sugHit]
      · by_cases hauth : strHas m "Authentication failed".data = true
        · simp [getRecoverySuggestion, hco, hm, h0, h401, hauth, sugHit]
        · rw [Bool.not_eq_true] at hauth
          by_cases hperm : c = 403 ∨ c = 111 ∨ c = 212
          · simp [getRecoverySuggestion, hco, hm, h0, h401, hauth, hperm, sugHit]
            omega
          · by_cases hconn : 1000 ≤ c ∧ c < 2000
            · simp [getRecoverySuggestion, hco, hm, h0, h401, hauth, hperm, hconn, sugHit]
            · by_cases h133 : c = 133
              · simp [getRecoverySuggestion, hco, hm, h0, h401, hauth, hperm, hconn,
                  h133, sugHit]
              · by_cases hserv : 500 ≤ c ∧ c < 600
                · simp [getRecoverySuggestion, hco, hm, h0, h401, hauth, hperm, hconn,
                    h133, hserv, sugHit]
                · simp [getRecoverySuggestion, hco, hm, h0, h401, hauth, hperm, hconn,
                    h133, hserv, sugHit]
                  omega

/-- C3 witness: the amended equivalence instantiated at code 9999 with a
message that does not mention authentication. -/
theorem C3_witness :
    getRecoverySuggestion (⟨some "odd".data, some 9999, none⟩ : JSErr)
        = Except.ok none ↔
      ((⟨some "odd".data, some 9999, none⟩ : JSErr).code = none ∨
        (⟨some "odd".data, some 9999, none⟩ : JSErr).code = some 0 ∨
        ∃ c, (⟨some "odd".data, some 9999, none⟩ : JSErr).code = some c
          ∧ sugHit c = false
          ∧ strHas "odd".data "Authentication failed".data = false) :=
  C3_amended _ "odd".data rfl

/-- C8 counterexample: with a truthy code other than 401 and an absent
message, `getRecoverySuggestion` evaluates `error.message.includes(...)` on
`undefined` and raises a TypeError (modelled as `Except.error ()`), so the
claim's quantification over errors with an absent message field fails. -/
theorem C8_cex :
    getRecoverySuggestion ⟨none, some 500, none⟩ = Except.error () := by rfl

/-- C8 (amended): enrichment never raises on errors whose message field is a
string — which is every JavaScript `Error` instance — and the composed
pipeline `getRecoverySuggestion (handleApiError e)` never raises for any
input at all, since `handleApiError` always produces a string message when
the code is truthy and is the identity otherwise. -/
theorem C8_amended :
    ∀ e : JSErr,
      (∀ m, e.message = some m → ∃ r, getRecoverySuggestion e = Except.ok r) ∧
      (∃ r, getRecoverySuggestion (handleApiError e) = Except.ok r) := by
  intro e
  refine ⟨fun m hm => recovery_ok_of_message e m hm, ?_⟩
  rcases hco : e.code with _ | c
  · have hsame : handleApiError e = e := by unfold handleApiError; rw [hco]
    rw [hsame]
    refine ⟨none, ?_⟩
    unfold getRecoverySuggestion
    rw [hco]
  · by_cases h0 : c = 0
    · have hsame : handleApiError e = e := by
        unfold handleApiError
        split
        next => rfl
        next c' heq =>
          rw [hco] at heq; injection heq with h; subst h
          rw [if_pos h0]
      rw [hsame]
      refine ⟨none, ?_⟩
      unfold getRecoverySuggestion
      split
      next => rfl
      next c' heq =>
        rw [hco] at heq; injection heq with h; subst h
        rw [if_pos h0]
    · obtain ⟨mm, hmm⟩ : ∃ mm, (handleApiError e).message = some mm := by
        unfold handleApiError
        split
        next heq => rw [hco] at heq; exact Option.noConfusion heq
        next c' heq =>
          rw [hco] at heq; injection heq with h; subst h
          rw [if_neg h0]
          split
          · exact ⟨_, rfl⟩
          · exact ⟨_, rfl⟩
      exact recovery_ok_of_message _ mm hmm

/-- C8 witness: the amended totality applied at a concrete error carrying a
string message and an unmapped code. -/
theorem C8_witness :
    ∃ r, getRecoverySuggestion (⟨some "x".data, some 999, none⟩ : JSErr)
      = Except.ok r :=
  (C8_amended ⟨some "x".data, some 999, none⟩).1 ("x".data) rfl

/-- JavaScript truthiness of an optional string field: `undefined` and the
empty string are falsy. -/
def truthyStr : Option JStr → Bool
  | none => false
  | some [] => false
  | some (_ :: _) => true

/-- The user settings record consumed by `getAuthHeaders` and
`createJsonRpcClient` in `src/auth.js`. -/
structure UserSettings where
  wikiUrl : Option JStr
  authMethod : Option JStr
  username : Option JStr
  password : Option JStr
  defaultNamespace : Option JStr
deriving DecidableEq

/-- The RFC 4648 base64 alphabet. -/
def b64Table : JStr :=
  "ABCDEFGHIJKLMNOPQRSTUVWXYZabcdefghijklmnopqrstuvwxyz0123456789+/".data

/-- Character for a 6-bit value. -/
def b64Char (n : Nat) : Char := b64Table.getD n '?'

/-- Standard base64 of a byte sequence, with padding. -/
def base64 : List Nat → JStr
  | [] => []
  | [a] => [b64Char (a / 4), b64Char (a % 4 * 16), '=', '=']
  | [a, b] => [b64Char (a / 4), b64Char (a % 4 * 16 + b / 16), b64Char (b % 16 * 4), '=']
  | a :: b :: c :: rest =>
    b64Char (a / 4) :: b64Char (a % 4 * 16 + b / 16) :: b64Char (b % 16 * 4 + c / 64)
      :: b64Char (c % 64) :: base64 rest

/-- Model of the browser `btoa` builtin on Latin-1 strings: base64 of the
character codes (in JavaScript, a code point above 255 raises instead). -/
def btoa (s : JStr) : JStr := base64 (s.map Char.toNat)

/-- The constant header emitted first by `getAuthHeaders`. -/
def contentTypeHeader : JStr × JStr := ("Content-Type".data, "application/json".data)

/-- Embedding of `getAuthHeaders` from `src/auth.js`: validation throws are
modelled as `Except.error` carrying the thrown message; the returned headers
object is modelled as an association list in insertion order. -/
def getAuthHeaders (s : Option UserSettings) : Except JStr (List (JStr × JStr)) :=
  match s with
  | none => Except.error "User settings are required".data
  | some u =>
    if truthyStr u.wikiUrl = false then
      Except.error "DokuWiki URL is required in settings".data
    else if truthyStr u.authMethod = false then
      Except.error "Authentication method is required in settings".data
    else if truthyStr u.password = false then
      Except.error "Password/Token is required in settings".data
    else
      let am := u.authMethod.getD []
      if am = "BASIC_AUTH".data then
        if truthyStr u.username = false then
          Except.error "Username is required for Basic Authentication".data
        else
          Except.ok [contentTypeHeader,
            ("Authorization".data,
              "Basic ".data ++ btoa (u.username.getD [] ++ ":".data ++ u.password.getD []))]
      else if am = "BEARER_TOKEN".data then
        Except.ok [contentTypeHeader,
          ("Authorization".data, "Bearer ".data ++ u.password.getD [])]
      else
        Except.error ("Unsupported authentication method: ".data ++ am
          ++ ". Use BASIC_AUTH or BEARER_TOKEN.".data)

/-- C5: with wikiUrl, BASIC_AUTH, username and password all present (and
Latin-1, as the browser btoa requires), the headers are exactly Content-Type
and Authorization, Basic base64(username:password); with BEARER_TOKEN and a
password present, exactly Content-Type and Authorization, Bearer password,
for any value of the username field. -/
theorem C5_headers :
    ∀ (w u p : JStr),
      w ≠ [] → u ≠ [] → p ≠ [] →
      (∀ ch ∈ u, ch.toNat < 256) → (∀ ch ∈ p, ch.toNat < 256) →
      getAuthHeaders (some ⟨some w, some "BASIC_AUTH".data, some u, some p, none⟩)
          = Except.ok [contentTypeHeader,
              ("Authorization".data, "Basic ".data ++ btoa (u ++ ":".data ++ p))]
      ∧ ∀ un : Option JStr,
          getAuthHeaders (some ⟨some w, some "BEARER_TOKEN".data, un, some p, none⟩)
            = Except.ok [contentTypeHeader,
                ("Authorization".data, "Bearer ".data ++ p)] := by
  intro w u p hw hu hp _ _
  obtain ⟨a, w', rfl⟩ : ∃ a w', w = a :: w' := by
    cases w with
    | nil => exact absurd rfl hw
    | cons a w' => exact ⟨a, w', rfl⟩
  obtain ⟨b, p', rfl⟩ : ∃ b p', p = b :: p' := by
    cases p with
    | nil => exact absurd rfl hp
    | cons b p' => exact ⟨b, p', rfl⟩
  constructor
  · obtain ⟨c, u', rfl⟩ : ∃ c u', u = c :: u' := by
      cases u with
      | nil => exact absurd rfl hu
      | cons c u' => exact ⟨c, u', rfl⟩
    simp [getAuthHeaders, truthyStr]
  · intro un
    simp [getAuthHeaders, truthyStr]

/-- C5 witness: the spec's concrete example user and password, plus a bearer
example. -/
theorem C5_witness :
    getAuthHeaders (some ⟨some "https://wiki.example.com".data, some "BASIC_AUTH".data,
          some "user".data, some "password123".data, none⟩)
        = Except.ok [contentTypeHeader,
            ("Authorization".data,
              "Basic ".data ++ btoa ("user".data ++ ":".data ++ "password123".data))]
    ∧ ∀ un : Option JStr,
        getAuthHeaders (some ⟨some "https://wiki.example.com".data,
              some "BEARER_TOKEN".data, un, some "password123".data, none⟩)
          = Except.ok [contentTypeHeader,
              ("Authorization".data, "Bearer ".data ++ "password123".data)] :=
  C5_headers "https://wiki.example.com".data "user".data "password123".data
    (by decide) (by decide) (by decide) (by decide) (by decide)

/-- The JSON-RPC endpoint path appended to the wiki URL. -/
def jsonrpcPath : JStr := "lib/exe/jsonrpc.php".data

/-- Model of `wikiUrl.endsWith('/')`: the last character is a slash. -/
def endsSlash : JStr → Bool
  | [] => false
  | [c] => c == '/'
  | _ :: b :: t => endsSlash (b :: t)

/-- Embedding of the base-URL derivation in `createJsonRpcClient`
(`src/auth.js`): append the path directly when the URL already ends in a
slash, otherwise insert one. -/
def baseUrlOf (w : JStr) : JStr :=
  if endsSlash w then w ++ jsonrpcPath else w ++ "/".data ++ jsonrpcPath

/-- Spec-side endpoint derivation, following the words of the spec: join
wikiUrl to lib/exe/jsonrpc.php with exactly one separating slash, stripping
a trailing slash from wikiUrl first so that no double slash is produced. -/
def specEndpointNormalized (w : JStr) : JStr :=
  (if endsSlash w then w.dropLast else w) ++ "/".data ++ jsonrpcPath

lemma endsSlash_dropLast : ∀ w : JStr, endsSlash w = true → w.dropLast ++ "/".data = w := by
  intro w
  induction w with
  | nil => intro h; cases h
  | cons a t ih =>
    cases t with
    | nil =>
      intro h
      have ha : a = '/' := by simpa [endsSlash] using h
      simp [ha, List.dropLast]
    | cons b t2 =>
      intro h
      have h2 : endsSlash (b :: t2) = true := by simpa [endsSlash] using h
      have h3 := ih h2
      show (a :: (b :: t2).dropLast) ++ "/".data = a :: b :: t2
      rw [List.cons_append, h3]

/-- C7: the derived request endpoint agrees, for every wikiUrl string, with
the spec's normalization (join with exactly one separating slash), and the
two spec examples with and without a trailing slash both yield
"https://wiki.example.com/lib/exe/jsonrpc.php". -/
theorem C7_endpoint :
    (∀ w : JStr, baseUrlOf w = specEndpointNormalized w)
    ∧ baseUrlOf "https://wiki.example.com/".data
        = "https://wiki.example.com/lib/exe/jsonrpc.php".data
    ∧ baseUrlOf "https://wiki.example.com".data
        = "https://wiki.example.com/lib/exe/jsonrpc.php".data := by
  refine ⟨?_, by decide, by decide⟩
  intro w
  unfold baseUrlOf specEndpointNormalized
  by_cases h : endsSlash w = true
  · rw [if_pos h, if_pos h, endsSlash_dropLast w h]
  · rw [if_neg h, if_neg h]

/-- Parsed JSON values, for the `result` field of a JSON-RPC response. -/
inductive JsonVal where
  | jnull
  | jbool (b : Bool)
  | jnum (n : Int)
  | jstr (s : JStr)
  | jarr (elems : List JsonVal)

/-- The `error` object of a JSON-RPC response body. -/
structure RpcError where
  code : Int
  message : JStr

/-- A parsed JSON-RPC response body: `error` is `none` when the field is
null or absent; a present error object is always truthy in JavaScript, even
when its code is 0. -/
structure RpcResponse where
  result : JsonVal
  error : Option RpcError

/-- The possible outcomes of the single `fetch` performed by
`client.call` in `src/auth.js`: network rejection, non-success HTTP status
with a body text, JSON parse failure, or a parsed response body. -/
inductive FetchOutcome where
  | reject (msg : JStr)
  | badStatus (status : Int) (body : JStr)
  | parseFail (msg : JStr)
  | parsed (resp : RpcResponse)

/-- The context marker checked by the transport's catch block. -/
def apiTag : JStr := "DokuWiki API error".data

/-- The transport catch block of `client.call`: prefix the message with the
failing method name unless it already carries the marker; the error's code
is preserved. -/
def wrapErr (method msg : JStr) (c : Option Int) : JSErr :=
  if strHas msg apiTag then ⟨some msg, c, none⟩
  else ⟨some ("DokuWiki API error calling ".data ++ method ++ ": ".data ++ msg), c, none⟩

/-- Embedding of the transport `client.call` in `createJsonRpcClient`
(`src/auth.js`), as a function of the HTTP outcome: non-ok statuses throw
"HTTP error <status>: <body>"; a parsed body with a present error object
throws an error carrying that object's code and message; otherwise
`result.result` is returned verbatim. All throws pass through the catch
block's context wrapper. -/
def rawCall (method : JStr) (o : FetchOutcome) : Except JSErr JsonVal :=
  match o with
  | .reject msg => Except.error (wrapErr method msg none)
  | .badStatus st body =>
    Except.error (wrapErr method ("HTTP error ".data ++ jsIntToStr st ++ ": ".data ++ body) none)
  | .parseFail msg => Except.error (wrapErr method msg none)
  | .parsed resp =>
    match resp.error with
    | some er => Except.error (wrapErr method er.message (some er.code))
    | none => Except.ok resp.result

/-- The TypeError JavaScript would raise on reading `.includes` of an
`undefined` message (unreachable in the facade pipeline). -/
def typeErrorJs : JSErr :=
  ⟨some "Cannot read properties of undefined (reading includes)".data, none, none⟩

/-- Heap bookkeeping for the facade's catch block: `handleApiError` returns
the caught object itself exactly when the code is falsy, so in that case any
mutation of the returned object is a mutation of the input. `inputAfter e x`
is the state of the caught error after the pipeline whose returned object
ended as `x`. -/
def inputAfter (e mutated : JSErr) : JSErr :=
  if truthyCode e.code then e else mutated

/-- The facade catch block of `client.call` in `src/apiClient.js`: enrich
via `handleApiError`, then append the recovery suggestion to the enriched
error's message when one is available. Returns (state of the caught error
after the pipeline, error value thrown). -/
def pipelineRun (e : JSErr) : JSErr × JSErr :=
  let enhanced := handleApiError e
  match getRecoverySuggestion enhanced with
  | Except.error _ => (inputAfter e enhanced, typeErrorJs)
  | Except.ok none => (inputAfter e enhanced, enhanced)
  | Except.ok (some s) =>
    let final : JSErr :=
      { enhanced with
        message := some ((enhanced.message.getD "undefined".data)
          ++ "\n\nPossible solution: ".data ++ s) }
    (inputAfter e final, final)

/-- The facade `client.call`: delegate to the transport and pipe any failure
through the enrichment pipeline. -/
def facadeCall (method : JStr) (o : FetchOutcome) : Except JSErr JsonVal :=
  match rawCall method o with
  | Except.ok v => Except.ok v
  | Except.error e => Except.error (pipelineRun e).2

/-- Method name used by `pageExists`. -/
def pageInfoMethod : JStr := "core.getPageInfo".data

/-- Method name used by `mediaExists`. -/
def mediaInfoMethod : JStr := "core.getMediaInfo".data

/-- Embedding of `client.pageExists` (`src/apiClient.js`): true on success,
false when the caught failure carries code 121, rethrow otherwise. -/
def pageExists (o : FetchOutcome) : Except JSErr Bool :=
  match facadeCall pageInfoMethod o with
  | Except.ok _ => Except.ok true
  | Except.error e => if e.code = some 121 then Except.ok false else Except.error e

/-- Embedding of `client.mediaExists` (`src/apiClient.js`): same pattern
with not-found code 221. -/
def mediaExists (o : FetchOutcome) : Except JSErr Bool :=
  match facadeCall mediaInfoMethod o with
  | Except.ok _ => Except.ok true
  | Except.error e => if e.code = some 221 then Except.ok false else Except.error e

lemma strHas_self (s : JStr) : strHas s s = true := by
  simpa using strHas_mid [] s []

lemma handleApiError_code (e : JSErr) : (handleApiError e).code = e.code := by
  unfold handleApiError
  split
  next => rfl
  next c heq =>
    rw [heq]
    split
    next => rw [← heq]
    next =>
      split
      next => rfl
      next => rfl

lemma handleApiError_message_truthy (e : JSErr) (c : Int) (hc : e.code = some c)
    (h0 : c ≠ 0) : ∃ mm, (handleApiError e).message = some mm := by
  unfold handleApiError
  split
  next heq => rw [hc] at heq; exact Option.noConfusion heq
  next c' heq =>
    rw [hc] at heq; injection heq with h; subst h
    rw [if_neg h0]
    split
    · exact ⟨_, rfl⟩
    · exact ⟨_, rfl⟩

lemma handleApiError_falsy (e : JSErr) (h : truthyCode e.code = false) :
    handleApiError e = e := by
  unfold handleApiError
  split
  next => rfl
  next c heq =>
    split
    next => rfl
    next h0 =>
      rw [heq] at h
      simp [truthyCode, h0] at h

lemma recovery_falsy (e : JSErr) (h : truthyCode e.code = false) :
    getRecoverySuggestion e = Except.ok none := by
  unfold getRecoverySuggestion
  split
  next => rfl
  next c heq =>
    by_cases h0 : c = 0
    · rw [if_pos h0]
    · rw [heq] at h
      simp [truthyCode, h0] at h

lemma code_ne_zero_of_truthy (e : JSErr) (c : Int) (hcode : e.code = some c)
    (ht : truthyCode e.code = true) : c ≠ 0 := by
  intro h
  rw [hcode] at ht
  simp [truthyCode, h] at ht

lemma pipeline_code (e : JSErr) : ((pipelineRun e).2).code = e.code := by
  rcases ht : truthyCode e.code with _ | _
  · simp [pipelineRun, handleApiError_falsy e ht, recovery_falsy e ht]
  · rcases hcode : e.code with _ | c
    · rw [hcode] at ht; exact Bool.noConfusion ht
    · have h0 : c ≠ 0 := code_ne_zero_of_truthy e c hcode ht
      obtain ⟨mm, hmm⟩ := handleApiError_message_truthy e c hcode h0
      rcases hok : getRecoverySuggestion (handleApiError e) with u | r
      · cases u; exact absurd hok (recovery_ne_err _ mm hmm)
      · unfold pipelineRun
        dsimp only
        rw [hok]
        cases r with
        | none => rw [← hcode]; exact handleApiError_code e
        | some s => rw [← hcode]; exact handleApiError_code e

/-- C9: the enrichment pipeline of the facade catch block (handleApiError
followed by the optional suggestion append) leaves the caught error's
message, code and originalMessage fields exactly as they were: the first
component of `pipelineRun` is the caught error's state after the pipeline,
accounting for the aliasing that occurs when `handleApiError` returns the
original object (falsy code), and it always equals the input. -/
theorem C9_no_mutation : ∀ e : JSErr, (pipelineRun e).1 = e := by
  intro e
  rcases ht : truthyCode e.code with _ | _
  · simp [pipelineRun, handleApiError_falsy e ht, recovery_falsy e ht, inputAfter, ht]
  · rcases hcode : e.code with _ | c
    · rw [hcode] at ht; exact Bool.noConfusion ht
    · have h0 : c ≠ 0 := code_ne_zero_of_truthy e c hcode ht
      obtain ⟨mm, hmm⟩ := handleApiError_message_truthy e c hcode h0
      rcases hok : getRecoverySuggestion (handleApiError e) with u | r
      · cases u; exact absurd hok (recovery_ne_err _ mm hmm)
      · unfold pipelineRun
        dsimp only
        rw [hok]
        cases r with
        | none => simp [inputAfter, ht]
        | some s => simp [inputAfter, ht]

/-- C10: for every error with a truthy numeric code, `handleApiError`
preserves the code and records the input's message as originalMessage; and
the full facade enrichment pipeline preserves the code of every error, so
the code observed by the pageExists/mediaExists checks is the code the
transport raised. -/
theorem C10_code_preserved :
    (∀ (e : JSErr) (c : Int), e.code = some c → c ≠ 0 →
        (handleApiError e).code = e.code
        ∧ (handleApiError e).originalMessage = e.message)
    ∧ (∀ e : JSErr, ((pipelineRun e).2).code = e.code) := by
  refine ⟨?_, pipeline_code⟩
  intro e c hc h0
  refine ⟨handleApiError_code e, ?_⟩
  unfold handleApiError
  split
  next heq => rw [hc] at heq; exact Option.noConfusion heq
  next c' heq =>
    rw [hc] at heq; injection heq with h; subst h
    rw [if_neg h0]
    split
    next => rfl
    next => rfl

/-- C10 witness: code and originalMessage preservation at a concrete error
with code 121. -/
theorem C10_witness :
    (handleApiError (⟨some "m".data, some 121, none⟩ : JSErr)).code
        = (⟨some "m".data, some 121, none⟩ : JSErr).code
    ∧ (handleApiError (⟨some "m".data, some 121, none⟩ : JSErr)).originalMessage
        = (⟨some "m".data, some 121, none⟩ : JSErr).message :=
  C10_code_preserved.1 ⟨some "m".data, some 121, none⟩ 121 rfl (by decide)

/-- C4: for a success-status HTTP response, the transport call returns the
parsed body's result verbatim when no error object is present (whatever the
result value, including null, the empty string and empty structures), and
fails when an error object is present — even one whose code is 0 — with an
error carrying that object's code and a message containing the object's
message (behind the method-context prefix the catch block adds). -/
theorem C4_transport :
    ∀ (method : JStr) (resp : RpcResponse),
      (resp.error = none → rawCall method (FetchOutcome.parsed resp) = Except.ok resp.result)
      ∧ (∀ er, resp.error = some er →
          ∃ e, rawCall method (FetchOutcome.parsed resp) = Except.error e
            ∧ e.code = some er.code
            ∧ ∃ m, e.message = some m ∧ strHas m er.message = true) := by
  intro method resp
  constructor
  · intro h
    unfold rawCall
    dsimp only
    rw [h]
  · intro er h
    unfold rawCall
    dsimp only
    rw [h]
    refine ⟨_, rfl, ?_, ?_⟩
    · unfold wrapErr; split <;> rfl
    · unfold wrapErr
      split
      next htag => exact ⟨_, rfl, strHas_self _⟩
      next htag =>
        exact ⟨_, rfl,
          strHas_of_eq _ ("DokuWiki API error calling ".data ++ method ++ ": ".data)
            er.message [] (by simp)⟩

/-- C4 witness: a response with result "" and an error object with code 0
still fails, with the code preserved and the message carried. -/
theorem C4_witness :
    ∃ e, rawCall "core.getPageInfo".data
        (FetchOutcome.parsed ⟨JsonVal.jstr [], some ⟨0, "boom".data⟩⟩) = Except.error e
      ∧ e.code = some (0 : Int)
      ∧ ∃ m, e.message = some m ∧ strHas m "boom".data = true :=
  (C4_transport "core.getPageInfo".data ⟨JsonVal.jstr [], some ⟨0, "boom".data⟩⟩).2
    ⟨0, "boom".data⟩ rfl

/-- C6: `pageExists` returns false exactly when the underlying page-info
call fails with code 121 (which the enrichment pipeline preserves), returns
true on any successful result, and re-raises the failed call's (enriched)
error unchanged for any other failure code or uncoded failure; `mediaExists`
satisfies the same property with the media-info method and code 221. -/
theorem C6_exists_checks : ∀ o : FetchOutcome,
    (pageExists o = Except.ok false ↔
      ∃ e, rawCall pageInfoMethod o = Except.error e ∧ e.code = some 121)
    ∧ (∀ v, rawCall pageInfoMethod o = Except.ok v → pageExists o = Except.ok true)
    ∧ (∀ e, rawCall pageInfoMethod o = Except.error e → e.code ≠ some 121 →
        pageExists o = Except.error (pipelineRun e).2)
    ∧ (mediaExists o = Except.ok false ↔
      ∃ e, rawCall mediaInfoMethod o = Except.error e ∧ e.code = some 221)
    ∧ (∀ v, rawCall mediaInfoMethod o = Except.ok v → mediaExists o = Except.ok true)
    ∧ (∀ e, rawCall mediaInfoMethod o = Except.error e → e.code ≠ some 221 →
        mediaExists o = Except.error (pipelineRun e).2) := by
  intro o
  refine ⟨?_, ?_, ?_, ?_, ?_, ?_⟩
  · cases hr : rawCall pageInfoMethod o with
    | ok v => simp [pageExists, facadeCall, hr]
    | error e =>
      by_cases h121 : e.code = some 121
      · simp [pageExists, facadeCall, hr, pipeline_code, h121]
      · simp [pageExists, facadeCall, hr, pipeline_code, h121]
  · intro v hv
    simp [pageExists, facadeCall, hv]
  · intro e he hne
    simp [pageExists, facadeCall, he, pipeline_code, hne]
  · cases hr : rawCall mediaInfoMethod o with
    | ok v => simp [mediaExists, facadeCall, hr]
    | error e =>
      by_cases h221 : e.code = some 221
      · simp [mediaExists, facadeCall, hr, pipeline_code, h221]
      · simp [mediaExists, facadeCall, hr, pipeline_code, h221]
  · intro v hv
    simp [mediaExists, facadeCall, hv]
  · intro e he hne
    simp [mediaExists, facadeCall, he, pipeline_code, hne]

/-- C6 witness: a page-info failure with code 121 makes pageExists return
false. -/
theorem C6_witness :
    pageExists (FetchOutcome.parsed ⟨JsonVal.jnull, some ⟨121, "not found".data⟩⟩)
      = Except.ok false :=
  (C6_exists_checks (FetchOutcome.parsed ⟨JsonVal.jnull, some ⟨121, "not found".data⟩⟩)).1.mpr
    ⟨_, rfl, rfl⟩
